import Mathlib

/-!
Shallow embedding of the Content Scheduler of the social-media-cms
repository (src/plugins/content-scheduler/server/services/scheduler.ts),
together with proofs about its publish orchestration, post formatting and
job-table lifecycle.

JavaScript objects that the code manipulates are embedded as association
lists of string keys and a small JS-value type; JS truthiness (`||`, `??`)
is modelled explicitly.  The Post Store (strapi entityService) is embedded
as an association list from post id to post; `update` on an id that is
absent from the store leaves the store unchanged (the external store has no
entity to patch).  Platform publishers (the social-media-connector
services) are external collaborators and appear as functions in an
environment record; a publisher that throws is modelled by `Except.error`.
-/

/-- The JS values that the scheduler code reads from and writes into
`platformSpecific` override objects and formatted payloads.  `vUndefined`
models JavaScript `undefined` (an absent field read back, or a field
explicitly set to undefined). -/
inductive Value where
  | vStr (s : String)
  | vBool (b : Bool)
  | vNum (n : Int)
  | vStrList (l : List String)
  | vNull
  | vUndefined
deriving DecidableEq, Repr

/-- JavaScript truthiness of an embedded value: `false`, `""`, `0`,
`null` and `undefined` are falsy; every array (even empty) is truthy. -/
def truthy : Value → Bool
  | .vStr s => s ≠ ""
  | .vBool b => b
  | .vNum n => n ≠ 0
  | .vStrList _ => true
  | .vNull => false
  | .vUndefined => false

/-- A JS object: an association list of fields, first occurrence of a key
is the binding (real JS objects have unique keys). -/
abbrev Obj := List (String × Value)

/-- Field access `o[k]`: `vUndefined` when the key is absent. -/
def getField (o : Obj) (k : String) : Value :=
  match o.find? (fun kv => kv.1 = k) with
  | some kv => kv.2
  | none => .vUndefined

/-- Lookup that distinguishes an absent key from a present one. -/
def findField (o : Obj) (k : String) : Option Value :=
  (o.find? (fun kv => kv.1 = k)).map (fun kv => kv.2)

/-- The keys of an object, in order. -/
def objKeys (o : Obj) : List String := o.map (fun kv => kv.1)

/-- JS `a || b` on embedded values. -/
def jsOr (a b : Value) : Value := if truthy a then a else b

/-- JS `a ?? b` (nullish coalescing) on embedded values. -/
def jsNullish (a b : Value) : Value :=
  match a with
  | .vNull => b
  | .vUndefined => b
  | v => v

/-- JS property assignment `o[k] = v`: overwrite in place when the key
exists, append otherwise (JS objects keep the original key position). -/
def setField (o : Obj) (k : String) (v : Value) : Obj :=
  if (o.find? (fun kv => kv.1 = k)).isSome then
    o.map (fun kv => if kv.1 = k then (k, v) else kv)
  else
    o ++ [(k, v)]

/-- JS object spread `{...base, ...extra}` restricted to our use
`{field1, field2, ...extra}`: fold property assignment of every field of
`extra` over `base`. -/
def spreadInto (base extra : Obj) : Obj :=
  extra.foldl (fun acc kv => setField acc kv.1 kv.2) base

/-- An error entry pushed onto `errors` / persisted into `publishErrors`.
The per-platform pushes carry the platform name; the outer catch pushes a
bare `{error}` (no platform).  The error text itself can be `undefined`
when an adapter returns `{success:false}` without an `error` field. -/
structure ErrEntry where
  platform : Option String
  error : Option String
deriving DecidableEq, Repr

/-- The result object a platform publisher resolves with
(`{success, postId?, videoId?, error?}`). -/
structure PlatformResult where
  success : Bool
  postId : Option String := none
  videoId : Option String := none
  error : Option String := none
deriving DecidableEq, Repr

/-- A social post as the scheduler reads it from the Post Store.  `media`
is embedded as the list of attachment URLs (`post.media?.map(m => m.url)`
only ever reads `url`); `externalIds` maps platform name to the external
identifier (which can be JS `undefined` when a publisher returned neither
`postId` nor `videoId`, hence `Option String` values). -/
structure Post where
  id : Nat
  title : Option String := none
  content : String := ""
  platforms : List String := []
  media : Option (List String) := none
  hashtags : Option (List String) := none
  platformSpecific : Option (List (String × Obj)) := none
  externalIds : Option (List (String × Option String)) := none
  status : String := "draft"
  scheduledAt : Nat := 0
  timezone : Option String := none
  publishedAt : Option Nat := none
  publishErrors : List ErrEntry := []
deriving DecidableEq, Repr

/-- The Post Store: durable entity storage, embedded as an association
list from post id to post (ids unique in a real store; lookups take the
first binding). -/
abbrev Store := List (Nat × Post)

/-- Embeds `strapi.entityService.findOne`: `none` models a null result. -/
def findOne (store : Store) (postId : Nat) : Option Post :=
  (store.find? (fun kv => kv.1 = postId)).map (fun kv => kv.2)

/-- Embeds `strapi.entityService.update(id, {data})`: patch the stored entity.
On an id with no entity the store is unchanged (there is nothing to
patch). -/
def updateStore (store : Store) (postId : Nat) (f : Post → Post) : Store :=
  store.map (fun kv => if kv.1 = postId then (kv.1, f kv.2) else kv)

/-- Embeds `post.platformSpecific?.[platform] || {}`. -/
def platformOverrides (post : Post) (platform : String) : Obj :=
  match post.platformSpecific with
  | none => []
  | some ps =>
    match ps.find? (fun kv => kv.1 = platform) with
    | some kv => kv.2
    | none => []

/-- Embeds `post.media?.map(m => m.url) || []`. -/
def mediaUrls (post : Post) : List String :=
  post.media.getD []

/-- An optional string read off the post object (`post.title`): absent is
JS `undefined`. -/
def optStr : Option String → Value
  | some s => .vStr s
  | none => .vUndefined

/-- An optional string list read off the post object (`post.hashtags`). -/
def optStrList : Option (List String) → Value
  | some l => .vStrList l
  | none => .vUndefined

/-- Embeds `formatPostForPlatform(post, platform)` of scheduler.ts: map a post
and a target platform to the platform payload.  facebook/instagram spread
the whole override object over the defaults; the other platforms read
individual override fields with `||` / `??` defaulting; an unknown
platform yields `{}`. -/
def formatPostForPlatform (post : Post) (platform : String) : Obj :=
  let ps := platformOverrides post platform
  match platform with
  | "facebook" =>
      spreadInto [("message", .vStr post.content),
                  ("media", .vStrList (mediaUrls post))] ps
  | "instagram" =>
      spreadInto [("message", .vStr post.content),
                  ("media", .vStrList (mediaUrls post))] ps
  | "twitter" =>
      [("text", .vStr post.content),
       ("media", .vStrList (mediaUrls post)),
       ("threadMode", jsOr (getField ps "threadMode") (.vBool false)),
       ("threadPosts", jsOr (getField ps "threadPosts") (.vStrList []))]
  | "linkedin" =>
      [("text", .vStr post.content),
       ("media", .vStrList (mediaUrls post)),
       ("visibility", jsOr (getField ps "visibility") (.vStr "PUBLIC"))]
  | "youtube" =>
      [("title", jsOr (getField ps "title") (optStr post.title)),
       ("description", jsOr (getField ps "description") (.vStr post.content)),
       ("videoUrl", .vStr ((mediaUrls post).headD "")),
       ("category", getField ps "category"),
       ("privacy", jsOr (getField ps "privacy") (.vStr "public")),
       ("tags", jsOr (getField ps "tags")
                     (jsOr (optStrList post.hashtags) (.vStrList [])))]
  | "tiktok" =>
      [("videoUrl", .vStr ((mediaUrls post).headD "")),
       ("caption", .vStr post.content),
       ("privacy", jsOr (getField ps "privacy") (.vStr "PUBLIC")),
       ("allowComment", jsNullish (getField ps "allowComments") (.vBool true)),
       ("allowDuet", jsNullish (getField ps "allowDuet") (.vBool true)),
       ("allowStitch", jsNullish (getField ps "allowStitch") (.vBool true))]
  | _ => []

/-- The environment in which `publishPost` runs: the platform publisher
services of the social-media-connector plugin (external collaborators)
and the clock reading used for `publishedAt`.  A publisher call that
rejects (throws) is an `Except.error` carrying the exception message. -/
structure PubEnv where
  facebookPublish : Obj → Except String PlatformResult
  twitterPublish : Obj → Except String PlatformResult
  linkedinPublish : Obj → Except String PlatformResult
  youtubeUpload : Obj → Except String PlatformResult
  tiktokUpload : Obj → Except String PlatformResult
  now : Nat := 0

/-- The `switch (platform)` dispatch inside the publish loop: which
service call is issued for a platform name.  Instagram goes through the
facebook service; `none` models the switch matching no case, so that the
`result` variable is still undefined afterwards. -/
def dispatchPlatform (env : PubEnv) (post : Post) (platform : String) :
    Option (Except String PlatformResult) :=
  match platform with
  | "facebook" => some (env.facebookPublish (formatPostForPlatform post "facebook"))
  | "instagram" => some (env.facebookPublish (formatPostForPlatform post "instagram"))
  | "twitter" => some (env.twitterPublish (formatPostForPlatform post "twitter"))
  | "linkedin" => some (env.linkedinPublish (formatPostForPlatform post "linkedin"))
  | "youtube" => some (env.youtubeUpload (formatPostForPlatform post "youtube"))
  | "tiktok" => some (env.tiktokUpload (formatPostForPlatform post "tiktok"))
  | _ => none

/-- The message of the TypeError raised by evaluating `result.success`
when the switch matched no case and `result` is still undefined. -/
def undefinedResultMsg : String := "cannot read success of undefined"

/-- Embeds `result.postId || result.videoId` (an empty-string id is falsy and
falls through to `videoId`). -/
def externalIdOf (r : PlatformResult) : Option String :=
  match r.postId with
  | some s => if s ≠ "" then some s else r.videoId
  | none => r.videoId

/-- Assignment `externalIds[platform] = v` on the external-ids object. -/
def setExternalId (m : List (String × Option String)) (platform : String)
    (v : Option String) : List (String × Option String) :=
  if (m.find? (fun kv => kv.1 = platform)).isSome then
    m.map (fun kv => if kv.1 = platform then (platform, v) else kv)
  else m ++ [(platform, v)]

/-- The mutable state threaded through the per-platform loop of
`publishPost`: the `results` and `errors` accumulators, the current value
of the `externalIds` field of the loaded post object, and the Post Store.
`const externalIds = post.externalIds || {}` aliases the loaded object
when it is a real object — the loop then accumulates into it across
iterations — but creates a fresh `{}` each iteration when the field was
null/undefined, so `curExternalIds` stays `none` in that case. -/
structure LoopState where
  results : List PlatformResult
  errors : List ErrEntry
  curExternalIds : Option (List (String × Option String))
  store : Store
deriving DecidableEq, Repr

/-- One iteration of the publish loop for one platform name: issue the
dispatched call; on a truthy `result.success` push the result and persist
the updated `externalIds` immediately; on a falsy `success` push
`{platform, error}`; the `try` around the iteration converts a publisher
exception — or the undefined-result TypeError — into a pushed
`{platform, error}` entry, so the loop continues with the next
platform. -/
def loopStep (env : PubEnv) (postId : Nat) (post : Post) (s : LoopState)
    (platform : String) : LoopState :=
  let attempt : Except String LoopState :=
    match dispatchPlatform env post platform with
    | none => .error undefinedResultMsg
    | some (.error e) => .error e
    | some (.ok r) =>
      if r.success then
        let m := s.curExternalIds.getD []
        let m1 := setExternalId m platform (externalIdOf r)
        .ok { s with
          results := s.results ++ [r],
          curExternalIds := s.curExternalIds.map (fun _ => m1),
          store := updateStore s.store postId
            (fun p => { p with externalIds := some m1 }) }
      else
        .ok { s with errors := s.errors ++ [⟨some platform, r.error⟩] }
  match attempt with
  | .ok s1 => s1
  | .error e => { s with errors := s.errors ++ [⟨some platform, some e⟩] }

/-- The whole per-platform loop, over the platform list of the post. -/
def publishLoop (env : PubEnv) (postId : Nat) (post : Post)
    (platforms : List String) (s : LoopState) : LoopState :=
  platforms.foldl (loopStep env postId post) s

/-- The result object `publishPost` resolves with.  The normal path
carries `results`/`errors` and no `error`; the catch path carries a
single `error` message and no `results`/`errors`. -/
structure PublishResult where
  success : Bool
  results : Option (List PlatformResult) := none
  errors : Option (List ErrEntry) := none
  error : Option String := none
  postId : Nat
deriving DecidableEq, Repr

/-- The body of the `try` block of `publishPost`: load the post (a null
result raises `Post not found`), run the per-platform loop, compute the
final status (`published` unless no platform succeeded and at least one
error was recorded) and persist it with `publishedAt` and the error
list. -/
def publishPostBody (env : PubEnv) (store : Store) (postId : Nat) :
    Except String (Store × PublishResult) :=
  match findOne store postId with
  | none => .error "Post not found"
  | some post =>
    let s0 : LoopState := ⟨[], [], post.externalIds, store⟩
    let s := publishLoop env postId post post.platforms s0
    let finalStatus :=
      if s.errors.length = 0 then "published"
      else if s.results.length = 0 then "failed"
      else "published"
    let store1 := updateStore s.store postId (fun p =>
      { p with status := finalStatus, publishedAt := some env.now,
               publishErrors := s.errors })
    .ok (store1,
      { success := s.errors.length = 0, results := some s.results,
        errors := some s.errors, postId := postId })

/-- Embeds `publishPost(postId)`: the publish orchestrator.  Any exception the
try-body raises is caught: the post is marked `failed` with a single
aggregate error entry and `{success:false, error, postId}` is returned —
the orchestrator always resolves, it never throws to its caller. -/
def publishPost (env : PubEnv) (store : Store) (postId : Nat) :
    Store × PublishResult :=
  match publishPostBody env store postId with
  | .ok r => r
  | .error e =>
    (updateStore store postId (fun p =>
      { p with status := "failed", publishErrors := [⟨none, some e⟩] }),
     { success := false, error := some e, postId := postId })

/-- The local wall-clock rendering of an instant in a timezone, as read
through the JS Date getters (`getMinutes`, `getHours`, `getDate`,
`getMonth` — the latter zero-based, hence `month0`). -/
structure ZonedFields where
  minutes : Nat
  hours : Nat
  date : Nat
  month0 : Nat
deriving DecidableEq, Repr

/-- The environment of the scheduler: the clock (`new Date()`), the
date-fns-tz `utcToZonedTime` renderer and the node-cron expression
validator (external collaborators), and the publish environment used when
a schedule fires or is already past due. -/
structure SchedEnv where
  now : Nat
  utcToZonedTime : Nat → String → ZonedFields
  cronValidate : String → Bool
  pub : PubEnv

/-- A node-cron task as registered by `cron.schedule`: its expression,
its timezone binding, the post id its callback captured, and whether
`stop()` has been called on it.  An unstopped task runs its callback
whenever the wall clock matches its expression — which recurs once per
year for the expressions built here. -/
structure CronTask where
  expr : String
  timezone : String
  cbPostId : Nat
  stopped : Bool
deriving DecidableEq, Repr

/-- A `ScheduledJob` entry of the Job Table (`this.jobs`), holding the
task reference by its registry index. -/
structure ScheduledJob where
  id : String
  taskId : Nat
  postId : Nat
  scheduledAt : Nat
deriving DecidableEq, Repr

/-- The scheduler state: the Job Table (a JS Map keyed by the string
form of the post id), the registry of every node-cron task created so far
(with its stopped flag), the next task index, the log of Publish
Orchestrator invocations, and the Post Store. -/
structure SchedState where
  jobs : List (String × ScheduledJob)
  tasks : List (Nat × CronTask)
  nextTaskId : Nat
  published : List Nat
  store : Store
deriving DecidableEq, Repr

/-- A fresh scheduler over a given Post Store. -/
def initState (store : Store) : SchedState :=
  { jobs := [], tasks := [], nextTaskId := 0, published := [], store := store }

/-- JS `Map.set`: overwrite in place when the key exists, append
otherwise. -/
def jobsSet (m : List (String × ScheduledJob)) (k : String)
    (v : ScheduledJob) : List (String × ScheduledJob) :=
  if (m.find? (fun kv => kv.1 = k)).isSome then
    m.map (fun kv => if kv.1 = k then (k, v) else kv)
  else m ++ [(k, v)]

/-- JS `Map.get`. -/
def jobsGet (m : List (String × ScheduledJob)) (k : String) :
    Option ScheduledJob :=
  (m.find? (fun kv => kv.1 = k)).map (fun kv => kv.2)

/-- JS `Map.delete`. -/
def jobsDelete (m : List (String × ScheduledJob)) (k : String) :
    List (String × ScheduledJob) :=
  m.filter (fun kv => kv.1 ≠ k)

/-- Look up a task in the registry by its index. -/
def taskGet (ts : List (Nat × CronTask)) (tid : Nat) : Option CronTask :=
  (ts.find? (fun kv => kv.1 = tid)).map (fun kv => kv.2)

/-- Embeds `task.stop()` on the task with the given registry index. -/
def taskStop (ts : List (Nat × CronTask)) (tid : Nat) :
    List (Nat × CronTask) :=
  ts.map (fun kv =>
    if kv.1 = tid then (kv.1, { kv.2 with stopped := true }) else kv)

/-- Invoke the Publish Orchestrator for a post: run `publishPost` against
the store and log the invocation. -/
def invokeOrchestrator (env : SchedEnv) (st : SchedState) (postId : Nat) :
    SchedState :=
  { st with store := (publishPost env.pub st.store postId).1,
            published := st.published ++ [postId] }

/-- Embeds `post.timezone` with the falsy-default `UTC`. -/
def tzOrUTC : Option String → String
  | some tz => if tz = "" then "UTC" else tz
  | none => "UTC"

/-- The cron expression string `schedulePost` builds:
`minute hour day month *`, from the zoned rendering of the instant. -/
def cronExprOf (z : ZonedFields) : String :=
  toString z.minutes ++ " " ++ toString z.hours ++ " " ++ toString z.date
    ++ " " ++ toString (z.month0 + 1) ++ " *"

/-- The value `schedulePost` (and `unschedulePost`/`reschedulePost`)
resolves with; fields a given return path does not mention are `none`.
The bare `return` of the immediate-publish branch is modelled by the
surrounding `Option` being `none`. -/
structure SchedResult where
  success : Bool
  postId : Option Nat := none
  scheduledAt : Option Nat := none
  cronExpression : Option String := none
  error : Option String := none
deriving DecidableEq, Repr

/-- Embeds `schedulePost(post)`: publish immediately (and register nothing) when
the scheduled time is not in the future; otherwise derive the cron
expression from the instant rendered in the timezone of the post,
validate it
(an invalid expression is thrown and caught into `{success:false,
error}`), register the cron task — whose fire callback publishes the post
and then deletes the Job Table entry, without stopping the task — and
insert the Job Table entry, overwriting any entry already present for
that key. -/
def schedulePost (env : SchedEnv) (st : SchedState) (post : Post) :
    Option SchedResult × SchedState :=
  if post.scheduledAt ≤ env.now then
    (none, invokeOrchestrator env st post.id)
  else
    let timezone := tzOrUTC post.timezone
    let z := env.utcToZonedTime post.scheduledAt timezone
    let cronExpression := cronExprOf z
    if env.cronValidate cronExpression = false then
      (some { success := false,
              error := some ("Invalid cron expression: " ++ cronExpression) },
       st)
    else
      let tid := st.nextTaskId
      let task : CronTask :=
        { expr := cronExpression, timezone := timezone,
          cbPostId := post.id, stopped := false }
      let jobs1 := jobsSet st.jobs (toString post.id)
        { id := toString post.id, taskId := tid, postId := post.id,
          scheduledAt := post.scheduledAt }
      (some { success := true, postId := some post.id,
              scheduledAt := some post.scheduledAt,
              cronExpression := some cronExpression },
       { st with tasks := st.tasks ++ [(tid, task)], nextTaskId := tid + 1,
                 jobs := jobs1 })

/-- The cron engine firing a registered task at an instant whose local
wall clock matches the expression of the task: if the task has not been
stopped, its callback runs — invoke the Publish Orchestrator for the
captured post id, then delete the Job Table entry for it.  The callback
never calls `task.stop()`. -/
def fireTask (env : SchedEnv) (st : SchedState) (tid : Nat) : SchedState :=
  match taskGet st.tasks tid with
  | some t =>
    if t.stopped then st
    else
      let st1 := invokeOrchestrator env st t.cbPostId
      { st1 with jobs := jobsDelete st1.jobs (toString t.cbPostId) }
  | none => st

/-- Embeds `unschedulePost(postId)`: look up the Job Table by the string form of
the id; stop the task and delete the entry when present, otherwise report
`Job not found`. -/
def unschedulePost (st : SchedState) (postId : Nat) :
    SchedResult × SchedState :=
  match jobsGet st.jobs (toString postId) with
  | some job =>
    ({ success := true },
     { st with tasks := taskStop st.tasks job.taskId,
               jobs := jobsDelete st.jobs (toString postId) })
  | none => ({ success := false, error := some "Job not found" }, st)

/-- Embeds `reschedulePost(postId, newScheduledAt)`: best-effort unschedule,
load the post (absence raises `Post not found`, caught into
`{success:false, error}`), persist the new time, then schedule with the
new time. -/
def reschedulePost (env : SchedEnv) (st : SchedState) (postId : Nat)
    (newScheduledAt : Nat) : Option SchedResult × SchedState :=
  let st1 := (unschedulePost st postId).2
  match findOne st1.store postId with
  | none => (some { success := false, error := some "Post not found" }, st1)
  | some post =>
    let st2 := { st1 with
      store := updateStore st1.store postId
        (fun p => { p with scheduledAt := newScheduledAt }) }
    schedulePost env st2 { post with scheduledAt := newScheduledAt }

/-- Embeds `getScheduledJobs()`: the `{postId, scheduledAt}` snapshot of the Job
Table. -/
def getScheduledJobs (st : SchedState) : List (Nat × Nat) :=
  st.jobs.map (fun kv => (kv.2.postId, kv.2.scheduledAt))

/-- The number of registered, unstopped cron tasks whose callback targets
the given post id — the live triggers for that post. -/
def liveTriggersFor (st : SchedState) (postId : Nat) : Nat :=
  (st.tasks.filter
    (fun kv => kv.2.cbPostId = postId ∧ kv.2.stopped = false)).length

/-! ### Lemmas about the Post Store and the publish loop -/

/-- Unfolding `findOne` over a cons cell. -/
theorem findOne_cons (kv : Nat × Post) (rest : Store) (q : Nat) :
    findOne (kv :: rest) q = if kv.1 = q then some kv.2 else findOne rest q := by
  by_cases h : kv.1 = q
  · rw [if_pos h]
    unfold findOne
    rw [@List.find?_cons_of_pos (Nat × Post) (fun kv => decide (kv.1 = q))
      kv rest (by simp [h])]
    rfl
  · rw [if_neg h]
    unfold findOne
    rw [@List.find?_cons_of_neg (Nat × Post) (fun kv => decide (kv.1 = q))
      kv rest (by simp [h])]

/-- Unfolding `updateStore` over a cons cell. -/
theorem updateStore_cons (kv : Nat × Post) (rest : Store) (postId : Nat)
    (f : Post → Post) :
    updateStore (kv :: rest) postId f
      = (if kv.1 = postId then (kv.1, f kv.2) else kv)
          :: updateStore rest postId f := rfl

/-- Updating a post id rewrites exactly the binding of that id. -/
theorem findOne_updateStore (store : Store) (postId : Nat) (f : Post → Post) :
    findOne (updateStore store postId f) postId
      = (findOne store postId).map f := by
  induction store with
  | nil => rfl
  | cons kv rest ih =>
    rw [updateStore_cons, findOne_cons]
    by_cases h : kv.1 = postId
    · simp [findOne_cons, h]
    · simp [findOne_cons, h, ih]

/-- Updating an id that is absent from the store is a no-op. -/
theorem updateStore_absent (store : Store) (postId : Nat) (f : Post → Post)
    (h : findOne store postId = none) : updateStore store postId f = store := by
  induction store with
  | nil => rfl
  | cons kv rest ih =>
    rw [findOne_cons] at h
    by_cases hk : kv.1 = postId
    · simp [hk] at h
    · rw [if_neg hk] at h
      rw [updateStore_cons, if_neg hk, ih h]

/-- Updates never create or drop a binding. -/
theorem findOne_isSome_updateStore (store : Store) (postId q : Nat)
    (f : Post → Post) :
    (findOne (updateStore store postId f) q).isSome
      = (findOne store q).isSome := by
  induction store with
  | nil => rfl
  | cons kv rest ih =>
    obtain ⟨a, b⟩ := kv
    rw [updateStore_cons, findOne_cons, findOne_cons]
    by_cases hk : a = postId
    · subst hk
      by_cases hq : a = q
      · subst hq
        simp
      · simp [hq, ih]
    · by_cases hq : a = q
      · subst hq
        simp [hk]
      · simp [hk, hq, ih]

/-- One loop iteration either leaves the store unchanged or patches the
post being published. -/
theorem loopStep_store (env : PubEnv) (postId : Nat) (post : Post)
    (s : LoopState) (platform : String) :
    (loopStep env postId post s platform).store = s.store ∨
    ∃ f, (loopStep env postId post s platform).store
           = updateStore s.store postId f := by
  unfold loopStep
  cases hd : dispatchPlatform env post platform with
  | none => simp
  | some r =>
    cases r with
    | error e => simp
    | ok pr =>
      by_cases hs : pr.success
      · right
        refine ⟨fun p => { p with
            externalIds := some (setExternalId (s.curExternalIds.getD [])
              platform (externalIdOf pr)) }, ?_⟩
        simp [hs]
      · simp [hs]

/-- Unfolding the publish loop over a cons cell. -/
theorem publishLoop_cons (env : PubEnv) (postId : Nat) (post : Post)
    (p : String) (rest : List String) (s : LoopState) :
    publishLoop env postId post (p :: rest) s
      = publishLoop env postId post rest (loopStep env postId post s p) := rfl

/-- The publish loop processes an appended platform list in sequence. -/
theorem publishLoop_append (env : PubEnv) (postId : Nat) (post : Post)
    (l1 l2 : List String) (s : LoopState) :
    publishLoop env postId post (l1 ++ l2) s
      = publishLoop env postId post l2 (publishLoop env postId post l1 s) := by
  simp [publishLoop, List.foldl_append]

/-- The publish loop keeps every store binding present. -/
theorem publishLoop_store_isSome (env : PubEnv) (postId : Nat) (post : Post)
    (platforms : List String) :
    ∀ (s : LoopState) (q : Nat), (findOne s.store q).isSome = true →
      (findOne (publishLoop env postId post platforms s).store q).isSome
        = true := by
  induction platforms with
  | nil => intro s q h; exact h
  | cons p rest ih =>
    intro s q h
    rw [publishLoop_cons]
    apply ih
    rcases loopStep_store env postId post s p with heq | ⟨f, heq⟩
    · rw [heq]; exact h
    · rw [heq, findOne_isSome_updateStore]; exact h

/-! ### Concrete fixtures used by witnesses and counterexamples -/

/-- A publisher that always succeeds with an external post id. -/
def okPublisher : Obj → Except String PlatformResult :=
  fun _ => .ok { success := true, postId := some "fb_123" }

/-- A publisher that always fails with a rate-limit error. -/
def rateLimitedPublisher : Obj → Except String PlatformResult :=
  fun _ => .ok { success := false, error := some "rate limited" }

/-- The publish environment of the partial-failure scenario: the facebook
service succeeds with `fb_123`, the twitter service fails with
`rate limited`. -/
def envC1 : PubEnv :=
  { facebookPublish := okPublisher, twitterPublish := rateLimitedPublisher,
    linkedinPublish := okPublisher, youtubeUpload := okPublisher,
    tiktokUpload := okPublisher, now := 5000 }

/-- The post of the partial-failure scenario, targeting facebook and
twitter. -/
def postC1 : Post :=
  { id := 1, content := "hello", platforms := ["facebook", "twitter"],
    externalIds := some [], status := "scheduled" }

/-- A one-post store holding the partial-failure post. -/
def storeC1 : Store := [(1, postC1)]

/-- A scheduler environment over concrete renderer/validator functions:
the clock reads 1000, every derived cron expression validates. -/
def sEnvW : SchedEnv :=
  { now := 1000, utcToZonedTime := fun t _ => ⟨t % 60, 3, 15, 6⟩,
    cronValidate := fun _ => true, pub := envC1 }

/-- A post used by the scheduler fixtures, due at 2000 (in the future for
`sEnvW`). -/
def postW : Post := { id := 1, scheduledAt := 2000, platforms := [] }

/-- A fresh scheduler state over a store holding `postW`. -/
def stW : SchedState := initState [(1, postW)]

/-- The scheduler state after scheduling `postW` in the future. -/
def stW1 : SchedState := (schedulePost sEnvW stW postW).2

/-- C2: for a postId absent from the Post Store, `publishPost` resolves
with `{success:false, error:"Post not found"}` and the store is unchanged
— no mutation occurs; and any exception raised outside the per-platform
loop (any error of the try-body) is caught and converted into a `failed`
status update plus a resolved `{success:false, error}` result, so the
orchestrator always resolves and never throws. -/
theorem publishPost_not_found_and_never_throws :
    (∀ (env : PubEnv) (store : Store) (postId : Nat),
       findOne store postId = none →
       publishPost env store postId =
         (store, { success := false, error := some "Post not found",
                   postId := postId })) ∧
    (∀ (env : PubEnv) (store : Store) (postId : Nat) (e : String),
       publishPostBody env store postId = .error e →
       publishPost env store postId =
         (updateStore store postId (fun p =>
            { p with status := "failed",
                     publishErrors := [⟨none, some e⟩] }),
          { success := false, error := some e, postId := postId })) := by
  constructor
  · intro env store postId h
    have hbody : publishPostBody env store postId = .error "Post not found" := by
      unfold publishPostBody
      rw [h]
    have hupd : ∀ f, updateStore store postId f = store :=
      fun f => updateStore_absent store postId f h
    unfold publishPost
    rw [hbody]
    simp [hupd]
  · intro env store postId e h
    unfold publishPost
    rw [h]

/-- Witness for C2: postId 999 over the empty store. -/
theorem publishPost_not_found_witness :
    findOne ([] : Store) 999 = none ∧
    publishPost envC1 [] 999 =
      ([], { success := false, error := some "Post not found",
             postId := 999 }) :=
  ⟨rfl, publishPost_not_found_and_never_throws.1 envC1 [] 999 rfl⟩

/-- C5: for a post whose scheduled time is not in the future (including
equality with now), `schedulePost` registers no trigger, adds no Job
Table entry, invokes the Publish Orchestrator for the post exactly once,
and returns the bare undefined. -/
theorem schedulePost_past_immediate (env : SchedEnv) (st : SchedState)
    (post : Post) (h : post.scheduledAt ≤ env.now) :
    schedulePost env st post =
      (none, { st with
        published := st.published ++ [post.id],
        store := (publishPost env.pub st.store post.id).1 }) := by
  unfold schedulePost invokeOrchestrator
  rw [if_pos h]

/-- A post already due at clock reading 1000 of `sEnvW`. -/
def pastPostW : Post := { id := 7, scheduledAt := 500, platforms := [] }

/-- Witness for C5: a post due in the past is published immediately. -/
theorem schedulePost_past_immediate_witness :
    pastPostW.scheduledAt ≤ sEnvW.now ∧
    schedulePost sEnvW stW pastPostW =
      (none, { stW with
        published := stW.published ++ [pastPostW.id],
        store := (publishPost sEnvW.pub stW.store pastPostW.id).1 }) :=
  ⟨by decide, schedulePost_past_immediate sEnvW stW pastPostW (by decide)⟩

/-- C6: for a future scheduled time, the derived trigger expression fixes
minute, hour, day-of-month and month to the instant rendered in the
timezone of the post (defaulting to UTC) with a wildcard day-of-week (the
trailing `*` of `cronExprOf`); if validation rejects it, `schedulePost`
returns `{success:false, error}` and changes nothing, and otherwise it
returns `{success:true, postId, scheduledAt, cronExpression}`. -/
theorem schedulePost_future_trigger_spec (env : SchedEnv) (st : SchedState)
    (post : Post) (h : env.now < post.scheduledAt) :
    (env.cronValidate (cronExprOf (env.utcToZonedTime post.scheduledAt
        (tzOrUTC post.timezone))) = false →
      schedulePost env st post =
        (some { success := false,
                error := some ("Invalid cron expression: "
                  ++ cronExprOf (env.utcToZonedTime post.scheduledAt
                       (tzOrUTC post.timezone))) }, st)) ∧
    (env.cronValidate (cronExprOf (env.utcToZonedTime post.scheduledAt
        (tzOrUTC post.timezone))) = true →
      (schedulePost env st post).1 =
        some { success := true, postId := some post.id,
               scheduledAt := some post.scheduledAt,
               cronExpression := some (cronExprOf (env.utcToZonedTime
                 post.scheduledAt (tzOrUTC post.timezone))) }) := by
  have hn : ¬post.scheduledAt ≤ env.now := Nat.not_le.mpr h
  constructor
  · intro hv
    unfold schedulePost
    rw [if_neg hn]
    simp [hv]
  · intro hv
    unfold schedulePost
    rw [if_neg hn]
    simp [hv]

/-- Witness for C6: scheduling `postW` (due 2000, clock 1000) yields the
success shape with the rendered cron fields and wildcard day-of-week. -/
theorem schedulePost_future_trigger_spec_witness :
    sEnvW.now < postW.scheduledAt ∧
    (schedulePost sEnvW stW postW).1 =
      some { success := true, postId := some 1, scheduledAt := some 2000,
             cronExpression := some "20 3 15 7 *" } :=
  ⟨by decide,
   (schedulePost_future_trigger_spec sEnvW stW postW (by decide)).2 rfl⟩

/-- C3 (code bug): the first fire removes the Job Table entry and runs
the orchestrator once, but the callback never calls `task.stop()` — the
task is still registered and unstopped, and a second fire of the same
trigger (the yearly cron expression matches again a year later) invokes
the Publish Orchestrator a second time. -/
theorem fire_callback_leaves_trigger_live :
    (fireTask sEnvW stW1 0).published = [1] ∧
    jobsGet (fireTask sEnvW stW1 0).jobs "1" = none ∧
    taskGet (fireTask sEnvW stW1 0).tasks 0 =
      some { expr := "20 3 15 7 *", timezone := "UTC", cbPostId := 1,
             stopped := false } ∧
    (fireTask sEnvW (fireTask sEnvW stW1 0) 0).published = [1, 1] := by
  decide

/-- The same post rescheduled to 3000, for the double-schedule
counterexample. -/
def postW2 : Post := { id := 1, scheduledAt := 3000, platforms := [] }

/-- C4 counterexample: calling `schedulePost` for a post that already has
an active job does not cancel the prior trigger — afterwards the Job
Table has a single entry but two live cron triggers target post 1. -/
theorem schedulePost_overwrite_leaks_prior_trigger :
    liveTriggersFor (schedulePost sEnvW stW1 postW2).2 1 = 2 ∧
    (schedulePost sEnvW stW1 postW2).2.jobs.length = 1 := by
  decide

/-- C4 (amended): `reschedulePost(id, t2)` after scheduling the same id
at `t1` stops the prior trigger and leaves exactly one Job Table entry
for the id — with fire time `t2`, not `t1` — and exactly one live
trigger. -/
theorem reschedulePost_single_active_job (env : SchedEnv) (store : Store)
    (post : Post) (t1 t2 : Nat)
    (h1 : env.now < t1) (h2 : env.now < t2)
    (hv1 : env.cronValidate (cronExprOf (env.utcToZonedTime t1
      (tzOrUTC post.timezone))) = true)
    (hv2 : env.cronValidate (cronExprOf (env.utcToZonedTime t2
      (tzOrUTC post.timezone))) = true)
    (hfind : findOne store post.id = some post) :
    (reschedulePost env
        ((schedulePost env (initState store)
          { post with scheduledAt := t1 }).2) post.id t2).2.jobs =
      [(toString post.id,
        { id := toString post.id, taskId := 1, postId := post.id,
          scheduledAt := t2 })] ∧
    liveTriggersFor
      (reschedulePost env
        ((schedulePost env (initState store)
          { post with scheduledAt := t1 }).2) post.id t2).2 post.id = 1 := by
  have hn1 : ¬t1 ≤ env.now := Nat.not_le.mpr h1
  have hn2 : ¬t2 ≤ env.now := Nat.not_le.mpr h2
  have hst1 : (schedulePost env (initState store)
      { post with scheduledAt := t1 }).2 =
      { jobs := [(toString post.id,
          { id := toString post.id, taskId := 0, postId := post.id,
            scheduledAt := t1 })],
        tasks := [(0,
          { expr := cronExprOf (env.utcToZonedTime t1
              (tzOrUTC post.timezone)),
            timezone := tzOrUTC post.timezone, cbPostId := post.id,
            stopped := false })],
        nextTaskId := 1, published := [], store := store } := by
    unfold schedulePost
    rw [if_neg hn1]
    simp [hv1, initState, jobsSet]
  rw [hst1]
  have hun : unschedulePost
      { jobs := [(toString post.id,
          { id := toString post.id, taskId := 0, postId := post.id,
            scheduledAt := t1 })],
        tasks := [(0,
          { expr := cronExprOf (env.utcToZonedTime t1
              (tzOrUTC post.timezone)),
            timezone := tzOrUTC post.timezone, cbPostId := post.id,
            stopped := false })],
        nextTaskId := 1, published := [], store := store } post.id =
      ({ success := true },
       { jobs := [],
         tasks := [(0,
           { expr := cronExprOf (env.utcToZonedTime t1
               (tzOrUTC post.timezone)),
             timezone := tzOrUTC post.timezone, cbPostId := post.id,
             stopped := true })],
         nextTaskId := 1, published := [], store := store }) := by
    unfold unschedulePost
    simp [jobsGet, jobsDelete, taskStop]
  unfold reschedulePost
  rw [hun]
  simp only [hfind]
  unfold schedulePost
  simp [hn2, hv2, jobsSet, liveTriggersFor]

/-- Witness for C4 (amended): post 1 scheduled at 2000 then rescheduled
to 3000 leaves one job entry at 3000 and one live trigger. -/
theorem reschedulePost_single_active_job_witness :
    (sEnvW.now < 2000 ∧ sEnvW.now < 3000 ∧
      findOne [(1, postW)] postW.id = some postW) ∧
    ((reschedulePost sEnvW
        ((schedulePost sEnvW (initState [(1, postW)])
          { postW with scheduledAt := 2000 }).2) postW.id 3000).2.jobs =
      [(toString postW.id,
        { id := toString postW.id, taskId := 1, postId := postW.id,
          scheduledAt := 3000 })] ∧
     liveTriggersFor
       (reschedulePost sEnvW
         ((schedulePost sEnvW (initState [(1, postW)])
           { postW with scheduledAt := 2000 }).2) postW.id 3000).2
       postW.id = 1) :=
  ⟨⟨by decide, by decide, by decide⟩,
   reschedulePost_single_active_job sEnvW [(1, postW)] postW 2000 3000
     (by decide) (by decide) rfl rfl (by decide)⟩

/-- No Job Table lookup for a key succeeds after that key is deleted. -/
theorem jobsGet_jobsDelete (m : List (String × ScheduledJob)) (k : String) :
    jobsGet (jobsDelete m k) k = none := by
  unfold jobsGet jobsDelete
  have hnone : List.find? (fun kv => decide (kv.1 = k))
      (List.filter (fun kv => decide (kv.1 ≠ k)) m) = none := by
    rw [List.find?_eq_none]
    intro x hx
    have hxk := (List.mem_filter.mp hx).2
    simp at hxk ⊢
    exact hxk
  rw [hnone]
  rfl

/-- The Job Table key-coherence invariant: every entry is keyed by the
string form of the post id of its job (the only form `schedulePost` ever
inserts). -/
def jobsCoherent (st : SchedState) : Prop :=
  ∀ kv ∈ st.jobs, kv.1 = toString kv.2.postId

/-- C7: when an entry exists for the string form of the postId,
`unschedulePost` stops the trigger, removes the entry and returns
success, and a second call then reports `Job not found`; when no entry
exists it returns `{success:false, error:"Job not found"}` and leaves the
state unchanged; and (under key coherence) `getScheduledJobs` after an
unschedule never includes that postId. -/
theorem unschedulePost_semantics (st : SchedState) (postId : Nat) :
    (∀ job, jobsGet st.jobs (toString postId) = some job →
       unschedulePost st postId =
         ({ success := true },
          { st with tasks := taskStop st.tasks job.taskId,
                    jobs := jobsDelete st.jobs (toString postId) }) ∧
       (unschedulePost (unschedulePost st postId).2 postId).1 =
         { success := false, error := some "Job not found" }) ∧
    (jobsGet st.jobs (toString postId) = none →
       unschedulePost st postId =
         ({ success := false, error := some "Job not found" }, st)) ∧
    (jobsCoherent st →
       ∀ p t, (p, t) ∈ getScheduledJobs (unschedulePost st postId).2 →
         p ≠ postId) := by
  refine ⟨?_, ?_, ?_⟩
  · intro job hj
    have h1 : unschedulePost st postId =
        ({ success := true },
         { st with tasks := taskStop st.tasks job.taskId,
                   jobs := jobsDelete st.jobs (toString postId) }) := by
      unfold unschedulePost
      rw [hj]
    refine ⟨h1, ?_⟩
    rw [h1]
    unfold unschedulePost
    rw [jobsGet_jobsDelete]
  · intro hn
    unfold unschedulePost
    rw [hn]
  · intro hc p t hmem hpq
    subst hpq
    unfold getScheduledJobs at hmem
    rw [List.mem_map] at hmem
    obtain ⟨kv, hkv, heq⟩ := hmem
    have hpid : kv.2.postId = p := congrArg Prod.fst heq
    cases hcase : jobsGet st.jobs (toString p) with
    | some job =>
      have hst : (unschedulePost st p).2 =
          { st with tasks := taskStop st.tasks job.taskId,
                    jobs := jobsDelete st.jobs (toString p) } := by
        unfold unschedulePost
        rw [hcase]
      rw [hst] at hkv
      have hin := (List.mem_filter.mp hkv).1
      have hkne := (List.mem_filter.mp hkv).2
      have hck := hc kv hin
      rw [hpid] at hck
      simp [hck] at hkne
    | none =>
      have hst : (unschedulePost st p).2 = st := by
        unfold unschedulePost
        rw [hcase]
      rw [hst] at hkv
      have hck := hc kv hkv
      rw [hpid] at hck
      have hfindnone : List.find? (fun kv => decide (kv.1 = toString p))
          st.jobs = none := by
        have := hcase
        unfold jobsGet at this
        exact Option.map_eq_none'.mp this
      have := List.find?_eq_none.mp hfindnone kv hkv
      simp [hck] at this

/-- Witness for C7: unscheduling post 1 in `stW1` (entry present) and
post 2 (absent), with coherence discharged on the concrete table. -/
theorem unschedulePost_semantics_witness :
    (jobsGet stW1.jobs (toString 1) =
       some { id := "1", taskId := 0, postId := 1, scheduledAt := 2000 } ∧
     (unschedulePost (unschedulePost stW1 1).2 1).1 =
       { success := false, error := some "Job not found" }) ∧
    (jobsGet stW1.jobs (toString 2) = none ∧
     unschedulePost stW1 2 =
       ({ success := false, error := some "Job not found" }, stW1)) ∧
    (jobsCoherent stW1 ∧
     ∀ p t, (p, t) ∈ getScheduledJobs (unschedulePost stW1 1).2 → p ≠ 1) := by
  refine ⟨⟨by decide, ?_⟩, ⟨by decide, ?_⟩, ⟨?_, ?_⟩⟩
  · exact ((unschedulePost_semantics stW1 1).1
      { id := "1", taskId := 0, postId := 1, scheduledAt := 2000 }
      (by decide)).2
  · exact (unschedulePost_semantics stW1 2).2.1 (by decide)
  · intro kv hkv
    fin_cases hkv
    decide
  · exact (unschedulePost_semantics stW1 1).2.2
      (by intro kv hkv; fin_cases hkv; decide)

/-- The two ways of writing the final status agree: the code order of
`errors empty → published, else results empty → failed, else published`
equals `failed exactly when no success and some error`. -/
theorem finalStatus_characterisation (rs : List PlatformResult)
    (es : List ErrEntry) :
    (if es.length = 0 then "published"
     else if rs.length = 0 then "failed" else "published")
      = (if rs = [] ∧ es ≠ [] then "failed" else "published") := by
  by_cases he : es = []
  · simp [he]
  · by_cases hr : rs = []
    · simp [he, hr, List.length_eq_zero]
    · simp [he, hr, List.length_eq_zero]

/-- C1: for every loaded post the persisted status is `failed` exactly
when zero platforms succeeded and at least one error was recorded, and
`published` otherwise, with `publishErrors` set to the recorded errors
and `success = (errors empty)`; in the partial-failure scenario of the spec
(facebook ok with `fb_123`, twitter rate limited) the orchestrator yields
one result, one error, persisted status `published`,
`externalIds.facebook = "fb_123"`, `publishErrors` holding only the
twitter entry, and `success = false`. -/
theorem publishPost_final_status :
    (∀ (env : PubEnv) (store : Store) (postId : Nat) (post : Post),
       findOne store postId = some post →
       ∃ (rs : List PlatformResult) (es : List ErrEntry) (post2 : Post),
         (publishPost env store postId).2 =
           { success := decide (es.length = 0), results := some rs,
             errors := some es, postId := postId } ∧
         findOne (publishPost env store postId).1 postId = some post2 ∧
         post2.status =
           (if rs = [] ∧ es ≠ [] then "failed" else "published") ∧
         post2.publishErrors = es) ∧
    ((publishPost envC1 storeC1 1).2 =
       { success := false,
         results := some [{ success := true, postId := some "fb_123" }],
         errors := some [⟨some "twitter", some "rate limited"⟩],
         postId := 1 } ∧
     findOne (publishPost envC1 storeC1 1).1 1 =
       some { postC1 with
         status := "published",
         externalIds := some [("facebook", some "fb_123")],
         publishedAt := some 5000,
         publishErrors := [⟨some "twitter", some "rate limited"⟩] }) := by
  constructor
  · intro env store postId post hfind
    refine ⟨(publishLoop env postId post post.platforms
        ⟨[], [], post.externalIds, store⟩).results,
      (publishLoop env postId post post.platforms
        ⟨[], [], post.externalIds, store⟩).errors, ?_⟩
    have hbody : publishPostBody env store postId =
        .ok (updateStore (publishLoop env postId post post.platforms
               ⟨[], [], post.externalIds, store⟩).store postId (fun p =>
              { p with
                status := if (publishLoop env postId post post.platforms
                    ⟨[], [], post.externalIds, store⟩).errors.length = 0
                  then "published"
                  else if (publishLoop env postId post post.platforms
                      ⟨[], [], post.externalIds, store⟩).results.length = 0
                  then "failed" else "published",
                publishedAt := some env.now,
                publishErrors := (publishLoop env postId post post.platforms
                  ⟨[], [], post.externalIds, store⟩).errors }),
             { success := decide ((publishLoop env postId post post.platforms
                 ⟨[], [], post.externalIds, store⟩).errors.length = 0),
               results := some (publishLoop env postId post post.platforms
                 ⟨[], [], post.externalIds, store⟩).results,
               errors := some (publishLoop env postId post post.platforms
                 ⟨[], [], post.externalIds, store⟩).errors,
               postId := postId }) := by
      unfold publishPostBody
      rw [hfind]
    have hsome : (findOne (publishLoop env postId post post.platforms
        ⟨[], [], post.externalIds, store⟩).store postId).isSome = true := by
      apply publishLoop_store_isSome
      rw [show (⟨[], [], post.externalIds, store⟩ : LoopState).store = store
        from rfl, hfind]
      rfl
    obtain ⟨post3, hpost3⟩ := Option.isSome_iff_exists.mp hsome
    refine ⟨{ post3 with
      status := if (publishLoop env postId post post.platforms
          ⟨[], [], post.externalIds, store⟩).errors.length = 0
        then "published"
        else if (publishLoop env postId post post.platforms
            ⟨[], [], post.externalIds, store⟩).results.length = 0
        then "failed" else "published",
      publishedAt := some env.now,
      publishErrors := (publishLoop env postId post post.platforms
        ⟨[], [], post.externalIds, store⟩).errors }, ?_, ?_, ?_, ?_⟩
    · unfold publishPost
      rw [hbody]
    · unfold publishPost
      rw [hbody]
      rw [show ((updateStore (publishLoop env postId post post.platforms
          ⟨[], [], post.externalIds, store⟩).store postId _,
          _) : Store × PublishResult).1 = updateStore _ _ _ from rfl]
      rw [findOne_updateStore, hpost3]
      rfl
    · exact finalStatus_characterisation _ _
    · rfl
  · constructor
    · decide
    · decide

/-- Witness for C1: the general clause applied to the partial-failure
store itself. -/
theorem publishPost_final_status_witness :
    findOne storeC1 1 = some postC1 ∧
    ∃ (rs : List PlatformResult) (es : List ErrEntry) (post2 : Post),
      (publishPost envC1 storeC1 1).2 =
        { success := decide (es.length = 0), results := some rs,
          errors := some es, postId := 1 } ∧
      findOne (publishPost envC1 storeC1 1).1 1 = some post2 ∧
      post2.status = (if rs = [] ∧ es ≠ [] then "failed" else "published") ∧
      post2.publishErrors = es :=
  ⟨by decide, publishPost_final_status.1 envC1 storeC1 1 postC1 (by decide)⟩

/-- C9: a loaded post with an empty platforms list makes no platform
calls: the only store write is the final-status update — `published`,
empty `publishErrors`, `externalIds` untouched — and the orchestrator
returns `{success:true, results:[], errors:[]}`. -/
theorem publishPost_empty_platforms (env : PubEnv) (store : Store)
    (postId : Nat) (post : Post) (hfind : findOne store postId = some post)
    (hplat : post.platforms = []) :
    publishPost env store postId =
      (updateStore store postId (fun p =>
         { p with status := "published", publishedAt := some env.now,
                  publishErrors := [] }),
       { success := true, results := some [], errors := some [],
         postId := postId }) ∧
    findOne (publishPost env store postId).1 postId =
      some { post with
        status := "published", publishedAt := some env.now,
        publishErrors := [] } := by
  have h1 : publishPost env store postId =
      (updateStore store postId (fun p =>
         { p with status := "published", publishedAt := some env.now,
                  publishErrors := [] }),
       { success := true, results := some [], errors := some [],
         postId := postId }) := by
    unfold publishPost publishPostBody
    rw [hfind]
    simp [hplat, publishLoop]
  refine ⟨h1, ?_⟩
  rw [h1]
  rw [show ((updateStore store postId _, _) :
    Store × PublishResult).1 = updateStore store postId _ from rfl]
  rw [findOne_updateStore, hfind]
  rfl

/-- A post with no target platforms, present in a one-post store. -/
def postC9 : Post :=
  { id := 4, content := "np", platforms := [],
    externalIds := some [("facebook", some "old")], status := "scheduled" }

/-- Witness for C9 on a concrete store: the empty-platform post is marked
published with no new externalIds. -/
theorem publishPost_empty_platforms_witness :
    (findOne [(4, postC9)] 4 = some postC9 ∧ postC9.platforms = []) ∧
    publishPost envC1 [(4, postC9)] 4 =
      (updateStore [(4, postC9)] 4 (fun p =>
         { p with status := "published", publishedAt := some envC1.now,
                  publishErrors := [] }),
       { success := true, results := some [], errors := some [],
         postId := 4 }) :=
  ⟨⟨by decide, by decide⟩,
   (publishPost_empty_platforms envC1 [(4, postC9)] 4 postC9
     (by decide) (by decide)).1⟩

/-- The six platform names the dispatch switch handles. -/
def knownPlatforms : List String :=
  ["facebook", "instagram", "twitter", "linkedin", "youtube", "tiktok"]

/-- C10: a platform name outside the six switch cases leaves `result`
undefined; the read of `result.success` raises a TypeError which the
per-platform catch turns into an appended `{platform, error}` entry, and
the loop then continues through every remaining platform. -/
theorem publishPost_unknown_platform (env : PubEnv) (postId : Nat)
    (post : Post) (s : LoopState) (p : String) (l1 l2 : List String)
    (hp : p ∉ knownPlatforms) :
    loopStep env postId post s p =
      { s with errors := s.errors ++ [⟨some p, some undefinedResultMsg⟩] } ∧
    publishLoop env postId post (l1 ++ p :: l2) s =
      publishLoop env postId post l2
        (loopStep env postId post (publishLoop env postId post l1 s) p) := by
  have hp6 : ¬p = "facebook" ∧ ¬p = "instagram" ∧ ¬p = "twitter" ∧
      ¬p = "linkedin" ∧ ¬p = "youtube" ∧ ¬p = "tiktok" := by
    simpa [knownPlatforms, not_or] using hp
  have hd : dispatchPlatform env post p = none := by
    unfold dispatchPlatform
    simp [hp6.1, hp6.2.1, hp6.2.2.1, hp6.2.2.2.1, hp6.2.2.2.2.1,
      hp6.2.2.2.2.2]
  constructor
  · unfold loopStep
    rw [hd]
  · rw [publishLoop_append, publishLoop_cons]

/-- Witness for C10: the unknown platform `myspace` between facebook and
twitter gets an error entry and the loop still reaches twitter. -/
theorem publishPost_unknown_platform_witness :
    ("myspace" ∉ knownPlatforms) ∧
    loopStep envC1 1 postC1 ⟨[], [], none, storeC1⟩ "myspace" =
      { results := [], curExternalIds := none, store := storeC1,
        errors := [⟨some "myspace", some undefinedResultMsg⟩] } ∧
    publishLoop envC1 1 postC1 (["facebook"] ++ "myspace" :: ["twitter"])
        ⟨[], [], none, storeC1⟩ =
      publishLoop envC1 1 postC1 ["twitter"]
        (loopStep envC1 1 postC1
          (publishLoop envC1 1 postC1 ["facebook"] ⟨[], [], none, storeC1⟩)
          "myspace") :=
  ⟨by decide,
   (publishPost_unknown_platform envC1 1 postC1 ⟨[], [], none, storeC1⟩
     "myspace" ["facebook"] ["twitter"] (by decide)).1,
   (publishPost_unknown_platform envC1 1 postC1 ⟨[], [], none, storeC1⟩
     "myspace" ["facebook"] ["twitter"] (by decide)).2⟩

/-! ### The formatter claim: spec-side merge semantics -/

/-- Unfolding `findField` over a cons cell. -/
theorem findField_cons (kv : String × Value) (rest : Obj) (k : String) :
    findField (kv :: rest) k
      = if kv.1 = k then some kv.2 else findField rest k := by
  by_cases h : kv.1 = k
  · rw [if_pos h]
    unfold findField
    rw [@List.find?_cons_of_pos (String × Value) (fun kv => decide (kv.1 = k))
      kv rest (by simp [h])]
    rfl
  · rw [if_neg h]
    unfold findField
    rw [@List.find?_cons_of_neg (String × Value) (fun kv => decide (kv.1 = k))
      kv rest (by simp [h])]

/-- Lookup distributes over append. -/
theorem findField_append (o1 o2 : Obj) (k : String) :
    findField (o1 ++ o2) k
      = match findField o1 k with
        | some v => some v
        | none => findField o2 k := by
  induction o1 with
  | nil => rfl
  | cons kv rest ih =>
    rw [List.cons_append, findField_cons, findField_cons]
    by_cases h : kv.1 = k
    · rw [if_pos h, if_pos h]
    · rw [if_neg h, if_neg h, ih]

/-- A key that is not among the keys of an object has no binding. -/
theorem findField_eq_none_of_not_mem (o : Obj) (k : String)
    (h : k ∉ objKeys o) : findField o k = none := by
  unfold findField
  have hfn : List.find? (fun kv => decide (kv.1 = k)) o = none := by
    rw [List.find?_eq_none]
    intro x hx
    simp only [decide_eq_true_eq]
    intro hxk
    exact h (by rw [← hxk]; exact List.mem_map_of_mem (fun kv => kv.1) hx)
  rw [hfn]
  rfl

/-- Rewriting every binding of one key leaves the lookups of other keys
unchanged. -/
theorem findField_mapSet_ne (o : Obj) (k0 : String) (v0 : Value)
    (k : String) (h : k ≠ k0) :
    findField (o.map (fun kv => if kv.1 = k0 then (k0, v0) else kv)) k
      = findField o k := by
  induction o with
  | nil => rfl
  | cons kv rest ih =>
    rw [List.map_cons]
    by_cases hk : kv.1 = k0
    · rw [show (if kv.1 = k0 then (k0, v0) else kv) = (k0, v0)
        from if_pos hk, findField_cons, findField_cons]
      rw [if_neg (fun hh => h hh.symm),
        if_neg (by rw [hk]; exact fun hh => h hh.symm), ih]
    · rw [show (if kv.1 = k0 then (k0, v0) else kv) = kv from if_neg hk,
        findField_cons, findField_cons]
      by_cases hq : kv.1 = k
      · rw [if_pos hq, if_pos hq]
      · rw [if_neg hq, if_neg hq, ih]

/-- Rewriting every binding of a present key makes its lookup the new
value. -/
theorem findField_mapSet_present (o : Obj) (k0 : String) (v0 : Value)
    (h : (o.find? (fun kv => kv.1 = k0)).isSome = true) :
    findField (o.map (fun kv => if kv.1 = k0 then (k0, v0) else kv)) k0
      = some v0 := by
  induction o with
  | nil => simp at h
  | cons kv rest ih =>
    rw [List.map_cons]
    by_cases hk : kv.1 = k0
    · rw [show (if kv.1 = k0 then (k0, v0) else kv) = (k0, v0)
        from if_pos hk, findField_cons, if_pos rfl]
    · rw [show (if kv.1 = k0 then (k0, v0) else kv) = kv from if_neg hk,
        findField_cons, if_neg hk]
      apply ih
      rw [@List.find?_cons_of_neg (String × Value)
        (fun kv => decide (kv.1 = k0)) kv rest (by simp [hk])] at h
      exact h

/-- JS property assignment, seen through lookups: the assigned key now
maps to the value, all other keys are unchanged. -/
theorem findField_setField (o : Obj) (k0 : String) (v0 : Value)
    (k : String) :
    findField (setField o k0 v0) k
      = if k = k0 then some v0 else findField o k := by
  unfold setField
  by_cases hp : (o.find? (fun kv => kv.1 = k0)).isSome = true
  · rw [if_pos hp]
    by_cases hkk : k = k0
    · subst hkk
      rw [if_pos rfl]
      exact findField_mapSet_present o k v0 hp
    · rw [if_neg hkk]
      exact findField_mapSet_ne o k0 v0 k hkk
  · rw [if_neg hp, findField_append]
    have hnone : findField o k0 = none := by
      unfold findField
      rw [Option.not_isSome_iff_eq_none.mp hp]
      rfl
    by_cases hkk : k = k0
    · subst hkk
      rw [hnone, if_pos rfl, findField_cons, if_pos rfl]
    · rw [if_neg hkk]
      cases hfo : findField o k with
      | some v => rfl
      | none =>
        rw [findField_cons, if_neg (fun hh => hkk hh.symm)]
        rfl

/-- The override field when present, else the computed default — the
precedence rule of a shallow merge. -/
def firstSome (a b : Option Value) : Option Value :=
  match a with
  | some v => some v
  | none => b

/-- Spreading an override object with distinct keys over a base object:
the lookup of every key is the override binding when present, the base
binding otherwise. -/
theorem spreadInto_findField (extra : Obj) :
    ∀ (base : Obj) (k : String), (objKeys extra).Nodup →
    findField (spreadInto base extra) k
      = firstSome (findField extra k) (findField base k) := by
  induction extra with
  | nil => intro base k _; rfl
  | cons kv rest ih =>
    intro base k h
    have hnd : (objKeys rest).Nodup := (List.nodup_cons.mp h).2
    have hnotin : kv.1 ∉ objKeys rest := (List.nodup_cons.mp h).1
    rw [show spreadInto base (kv :: rest)
      = spreadInto (setField base kv.1 kv.2) rest from rfl]
    rw [ih _ k hnd, findField_setField, findField_cons]
    by_cases hk : k = kv.1
    · subst hk
      rw [if_pos rfl, if_pos rfl,
        findField_eq_none_of_not_mem rest kv.1 hnotin]
      rfl
    · rw [if_neg hk, if_neg (fun hh => hk hh.symm)]

/-- The per-platform computed default payload fields of the payload
table, before any override is applied (the "computed default fields"
of the claim). -/
def specDefaultFields (post : Post) (platform : String) : Obj :=
  match platform with
  | "facebook" =>
      [("message", .vStr post.content),
       ("media", .vStrList (mediaUrls post))]
  | "instagram" =>
      [("message", .vStr post.content),
       ("media", .vStrList (mediaUrls post))]
  | "twitter" =>
      [("text", .vStr post.content),
       ("media", .vStrList (mediaUrls post)),
       ("threadMode", .vBool false),
       ("threadPosts", .vStrList [])]
  | "linkedin" =>
      [("text", .vStr post.content),
       ("media", .vStrList (mediaUrls post)),
       ("visibility", .vStr "PUBLIC")]
  | "youtube" =>
      [("title", optStr post.title),
       ("description", .vStr post.content),
       ("videoUrl", .vStr ((mediaUrls post).headD "")),
       ("category", .vUndefined),
       ("privacy", .vStr "public"),
       ("tags", jsOr (optStrList post.hashtags) (.vStrList []))]
  | "tiktok" =>
      [("videoUrl", .vStr ((mediaUrls post).headD "")),
       ("caption", .vStr post.content),
       ("privacy", .vStr "PUBLIC"),
       ("allowComment", .vBool true),
       ("allowDuet", .vBool true),
       ("allowStitch", .vBool true)]
  | _ => []

/-- Shallow merge as the claim words it: keep every default field unless
the override object binds the same key, and append every remaining
override field — override fields take precedence. -/
def specMergeShallow (defaults overrides : Obj) : Obj :=
  defaults.map (fun kv => (kv.1, (findField overrides kv.1).getD kv.2))
    ++ overrides.filter (fun kv => (findField defaults kv.1).isNone)

/-- The reading the claim gives of the formatter: for every platform of the
table, the computed defaults with every field of
`platformSpecific[platform]` shallow-merged over them. -/
def specFormatPostForPlatform (post : Post) (platform : String) : Obj :=
  specMergeShallow (specDefaultFields post platform)
    (platformOverrides post platform)

/-- A post with a twitter override field outside the designated
twitter payload fields. -/
def postC8 : Post :=
  { id := 8, content := "tweet me",
    platformSpecific := some [("twitter", [("customField", .vStr "x")])] }

/-- C8 counterexample: for twitter the formatter does not shallow-merge
every override field over the defaults — `customField` is dropped by the
code but kept by the claimed merge, so the two payloads differ. -/
theorem formatPostForPlatform_not_shallow_merge :
    formatPostForPlatform postC8 "twitter"
      ≠ specFormatPostForPlatform postC8 "twitter" ∧
    getField (formatPostForPlatform postC8 "twitter") "customField"
      = .vUndefined ∧
    getField (specFormatPostForPlatform postC8 "twitter") "customField"
      = .vStr "x" := by
  decide

/-- C8 (amended): only for facebook and instagram does the payload equal
the computed defaults with every override field shallow-merged over them
(each key maps to the override value when bound, to the default
otherwise, for override objects with distinct keys); for twitter,
linkedin, youtube and tiktok the payload keys are exactly the fixed
per-platform field
list, so override fields outside it are dropped. -/
theorem formatPostForPlatform_merge_amended :
    (∀ (post : Post) (k : String),
       (objKeys (platformOverrides post "facebook")).Nodup →
       findField (formatPostForPlatform post "facebook") k
         = firstSome (findField (platformOverrides post "facebook") k)
             (findField (specDefaultFields post "facebook") k)) ∧
    (∀ (post : Post) (k : String),
       (objKeys (platformOverrides post "instagram")).Nodup →
       findField (formatPostForPlatform post "instagram") k
         = firstSome (findField (platformOverrides post "instagram") k)
             (findField (specDefaultFields post "instagram") k)) ∧
    (∀ post : Post,
       objKeys (formatPostForPlatform post "twitter")
         = ["text", "media", "threadMode", "threadPosts"] ∧
       objKeys (formatPostForPlatform post "linkedin")
         = ["text", "media", "visibility"] ∧
       objKeys (formatPostForPlatform post "youtube")
         = ["title", "description", "videoUrl", "category", "privacy",
            "tags"] ∧
       objKeys (formatPostForPlatform post "tiktok")
         = ["videoUrl", "caption", "privacy", "allowComment", "allowDuet",
            "allowStitch"]) := by
  refine ⟨?_, ?_, ?_⟩
  · intro post k h
    exact spreadInto_findField (platformOverrides post "facebook")
      (specDefaultFields post "facebook") k h
  · intro post k h
    exact spreadInto_findField (platformOverrides post "instagram")
      (specDefaultFields post "instagram") k h
  · intro post
    exact ⟨rfl, rfl, rfl, rfl⟩

/-- A post with a facebook override, for the amended-claim witness. -/
def postC8fb : Post :=
  { id := 9, content := "fb post",
    platformSpecific := some [("facebook", [("pageId", .vStr "page_123")])] }

/-- Witness for C8 (amended): on a concrete facebook override with
distinct keys, the merged lookup agrees for an override key. -/
theorem formatPostForPlatform_merge_amended_witness :
    (objKeys (platformOverrides postC8fb "facebook")).Nodup ∧
    findField (formatPostForPlatform postC8fb "facebook") "pageId"
      = firstSome (findField (platformOverrides postC8fb "facebook") "pageId")
          (findField (specDefaultFields postC8fb "facebook") "pageId") :=
  ⟨by decide,
   formatPostForPlatform_merge_amended.1 postC8fb "pageId" (by decide)⟩
